import Mathlib

/-!
Verification of the kuwa72/kaaoune core: extraction pipeline, reconciliation
engine and schema migration.  Shallow embedding of `src/lib/storage.ts` and
`src/lib/scraper.ts`.

Conventions of the embedding:
* A TypeScript optional field (`f?: T`) is modelled as `Option T`; `none`
  means the key is absent from the object, which is how every caller in the
  repository produces such objects (the scraper only assigns a key when a
  heuristic matched, and JSON payloads cannot carry `undefined`).
* JavaScript object spread `{...a, ...b}` therefore becomes: a field of `b`
  that is `some v` overwrites, a field that is `none` keeps `a`'s value.
* JavaScript numbers are modelled as exact rationals (`Rat`); the special
  value `NaN` produced by `parseFloat` is modelled explicitly by `JsNum.nan`
  where it matters (the numeric normalizer).
* Effectful store operations (`getDb`/`saveDb` around a pure body) are
  modelled as pure functions on the in-memory collection `Db`; the fresh
  UUID and the current timestamp are passed as explicit arguments.
-/

namespace Kaaoune

/-- Rating score: `'good' | 'bad'`; the stored field may also be `null`,
modelled as `Option Score` at the use sites (`src/lib/storage.ts` line 9). -/
inductive Score where
  | good
  | bad
deriving DecidableEq

/-- Per-user rating (`UserRating`, `src/lib/storage.ts` lines 7-12). -/
structure UserRating where
  userId : String
  score : Option Score
  comment : String
  updatedAt : String
deriving DecidableEq

/-- One configured user (`UserConfig`, `src/lib/storage.ts` lines 14-18). -/
structure UserConfig where
  id : String
  name : String
  icon : String
deriving DecidableEq

/-- Loan assumptions (`UserSettings.loan`, `src/lib/storage.ts` lines 22-26). -/
structure LoanSettings where
  interestRate : Rat
  termYears : Nat
  downPayment : Rat
deriving DecidableEq

/-- Collection-wide settings (`UserSettings`, `src/lib/storage.ts` lines 20-27). -/
structure UserSettings where
  users : List UserConfig
  loan : LoanSettings
deriving DecidableEq

/-- Workflow status (`PropertyStatus`, `src/lib/storage.ts` lines 30-38). -/
inductive PropertyStatus where
  | considering
  | exterior_viewed
  | viewing_scheduled
  | viewed
  | applying
  | contracted
  | excluded
  | sold_out
deriving DecidableEq

/-- Fee bundle (`PropertyData.fees`, `src/lib/scraper.ts` lines 16-20).
Each sub-field is an optional number (yen per month). -/
structure Fees where
  management : Option Rat := none
  repair : Option Rat := none
  parking : Option Rat := none
deriving DecidableEq

/-- Extraction result (`PropertyData`, `src/lib/scraper.ts` lines 3-23).
`title`, `price`, `url` and `images` are required; the rest are optional. -/
structure PropertyData where
  title : String
  price : String
  monthlyPayment : Option String := none
  url : String
  images : List String := []
  station : Option String := none
  stationMinute : Option Nat := none
  yearBuilt : Option Int := none
  area : Option Rat := none
  isFreehold : Option Bool := none
  units : Option Nat := none
  fees : Option Fees := none
  parkingStatus : Option String := none
  renovated : Option Bool := none
deriving DecidableEq

/-- Stored record (`PropertyWithId extends PropertyData`,
`src/lib/storage.ts` lines 41-47). -/
structure PropertyWithId extends PropertyData where
  id : String
  createdAt : String
  status : PropertyStatus
  ratings : List UserRating
  manuallyEditedFields : Option (List String) := none
deriving DecidableEq

/-- A manual-edit payload: `Partial<PropertyWithId>` as accepted by
`updateProperty` (`src/lib/storage.ts` line 334).  Every key of
`PropertyWithId` may be present (`some`) or absent (`none`). -/
structure PropertyUpdate where
  title : Option String := none
  price : Option String := none
  monthlyPayment : Option String := none
  url : Option String := none
  images : Option (List String) := none
  station : Option String := none
  stationMinute : Option Nat := none
  yearBuilt : Option Int := none
  area : Option Rat := none
  isFreehold : Option Bool := none
  units : Option Nat := none
  fees : Option Fees := none
  parkingStatus : Option String := none
  renovated : Option Bool := none
  id : Option String := none
  createdAt : Option String := none
  status : Option PropertyStatus := none
  ratings : Option (List UserRating) := none
  manuallyEditedFields : Option (List String) := none
deriving DecidableEq

/-- Payload of a rating update (`src/lib/storage.ts` line 230). -/
structure RatingData where
  score : Option Score
  comment : String
deriving DecidableEq

/-- The persisted collection (`db.json`): properties plus settings
(`defaultDb`, `src/lib/storage.ts` lines 50-62). -/
structure Db where
  properties : List PropertyWithId
  settings : UserSettings
deriving DecidableEq

/-- Object-spread on one optional field: a present (`some`) incoming value
overwrites, an absent one keeps the current value. -/
def jsOverride {α : Type} (cur upd : Option α) : Option α :=
  match upd with
  | some v => some v
  | none => cur

/-- Key-by-key fee merge `{...currentFees, ...incomingFees}`
(`src/lib/storage.ts` lines 322-325 and 358). -/
def mergeFees (cf uf : Fees) : Fees where
  management := jsOverride cf.management uf.management
  repair := jsOverride cf.repair uf.repair
  parking := jsOverride cf.parking uf.parking

/-- Spread of a possibly-absent fee object: `{...maybeFees}` contributes
nothing when the object is absent. -/
def feesOrEmpty : Option Fees → Fees
  | some f => f
  | none => {}

/-- Management fee of a stored record, reading through the optional bundle. -/
def feeManagement (p : PropertyWithId) : Option Rat :=
  (feesOrEmpty p.fees).management

/-- Repair fee of a stored record, reading through the optional bundle. -/
def feeRepair (p : PropertyWithId) : Option Rat :=
  (feesOrEmpty p.fees).repair

/-- Parking fee of a stored record, reading through the optional bundle. -/
def feeParking (p : PropertyWithId) : Option Rat :=
  (feesOrEmpty p.fees).parking

/-- The fixed list of protectable top-level fields
(`src/lib/storage.ts` line 302). -/
def topLevelFields : List String :=
  ["price", "area", "yearBuilt", "units", "station", "stationMinute", "parkingStatus"]

/-- Refresh merge (`refreshProperty` body, `src/lib/storage.ts` lines
295-326): drop incoming values for manually edited fields, then spread the
incoming data over the current record, merging the fee bundle key-by-key. -/
def refreshMerge (current : PropertyWithId) (data : PropertyData) : PropertyWithId :=
  let editedFields := current.manuallyEditedFields.getD []
  let priceU : Option String :=
    if editedFields.contains "price" then none else some data.price
  let areaU : Option Rat :=
    if editedFields.contains "area" then none else data.area
  let yearBuiltU : Option Int :=
    if editedFields.contains "yearBuilt" then none else data.yearBuilt
  let unitsU : Option Nat :=
    if editedFields.contains "units" then none else data.units
  let stationU : Option String :=
    if editedFields.contains "station" then none else data.station
  let stationMinuteU : Option Nat :=
    if editedFields.contains "stationMinute" then none else data.stationMinute
  let parkingStatusU : Option String :=
    if editedFields.contains "parkingStatus" then none else data.parkingStatus
  let feesU : Option Fees :=
    match data.fees with
    | none => none
    | some f =>
        some { management := if editedFields.contains "fees.management" then none else f.management
               repair := if editedFields.contains "fees.repair" then none else f.repair
               parking := if editedFields.contains "fees.parking" then none else f.parking }
  { current with
    title := data.title
    price := priceU.getD current.price
    monthlyPayment := jsOverride current.monthlyPayment data.monthlyPayment
    url := data.url
    images := data.images
    station := jsOverride current.station stationU
    stationMinute := jsOverride current.stationMinute stationMinuteU
    yearBuilt := jsOverride current.yearBuilt yearBuiltU
    area := jsOverride current.area areaU
    isFreehold := jsOverride current.isFreehold data.isFreehold
    units := jsOverride current.units unitsU
    fees := some (mergeFees (feesOrEmpty current.fees) (feesOrEmpty feesU))
    parkingStatus := jsOverride current.parkingStatus parkingStatusU
    renovated := jsOverride current.renovated data.renovated }

/-- Set-insert used for the manually-edited-field set (a JS `Set` keeps the
first occurrence and insertion order). -/
def addEdit (l : List String) (s : String) : List String :=
  if l.contains s then l else l ++ [s]

/-- Edited-field tracking of `updateProperty` (`src/lib/storage.ts` lines
345-353): every present key is added except `manuallyEditedFields`,
`ratings` and `status`; a present `fees` object contributes its present
sub-keys as compound names.  JS iterates the payload's own key order; only
membership (not order) is observable to the merges. -/
def trackEdits (base : List String) (u : PropertyUpdate) : List String :=
  let e1 := if u.title.isSome then addEdit base "title" else base
  let e2 := if u.price.isSome then addEdit e1 "price" else e1
  let e3 := if u.monthlyPayment.isSome then addEdit e2 "monthlyPayment" else e2
  let e4 := if u.url.isSome then addEdit e3 "url" else e3
  let e5 := if u.images.isSome then addEdit e4 "images" else e4
  let e6 := if u.station.isSome then addEdit e5 "station" else e5
  let e7 := if u.stationMinute.isSome then addEdit e6 "stationMinute" else e6
  let e8 := if u.yearBuilt.isSome then addEdit e7 "yearBuilt" else e7
  let e9 := if u.area.isSome then addEdit e8 "area" else e8
  let e10 := if u.isFreehold.isSome then addEdit e9 "isFreehold" else e9
  let e11 := if u.units.isSome then addEdit e10 "units" else e10
  let e12 :=
    match u.fees with
    | none => e11
    | some uf =>
        let a := if uf.management.isSome then addEdit e11 "fees.management" else e11
        let b := if uf.repair.isSome then addEdit a "fees.repair" else a
        if uf.parking.isSome then addEdit b "fees.parking" else b
  let e13 := if u.parkingStatus.isSome then addEdit e12 "parkingStatus" else e12
  let e14 := if u.renovated.isSome then addEdit e13 "renovated" else e13
  let e15 := if u.id.isSome then addEdit e14 "id" else e14
  if u.createdAt.isSome then addEdit e15 "createdAt" else e15

/-- Manual-edit merge (`updateProperty` body, `src/lib/storage.ts` lines
341-360): spread the raw payload over the current record (`{...current,
...updates}`), merge the fee bundle key-by-key when a fee object is present,
and replace `manuallyEditedFields` by the extended set. -/
def updateMerge (current : PropertyWithId) (u : PropertyUpdate) : PropertyWithId where
  title := u.title.getD current.title
  price := u.price.getD current.price
  monthlyPayment := jsOverride current.monthlyPayment u.monthlyPayment
  url := u.url.getD current.url
  images := u.images.getD current.images
  station := jsOverride current.station u.station
  stationMinute := jsOverride current.stationMinute u.stationMinute
  yearBuilt := jsOverride current.yearBuilt u.yearBuilt
  area := jsOverride current.area u.area
  isFreehold := jsOverride current.isFreehold u.isFreehold
  units := jsOverride current.units u.units
  fees :=
    match u.fees with
    | some uf => some (mergeFees (feesOrEmpty current.fees) uf)
    | none => current.fees
  parkingStatus := jsOverride current.parkingStatus u.parkingStatus
  renovated := jsOverride current.renovated u.renovated
  id := u.id.getD current.id
  createdAt := u.createdAt.getD current.createdAt
  status := u.status.getD current.status
  ratings := u.ratings.getD current.ratings
  manuallyEditedFields :=
    some (trackEdits ((current.manuallyEditedFields.getD []).foldl addEdit []) u)

/-- Update of the first record whose `id` matches (`findIndex` followed by an
in-place replacement, as in `src/lib/storage.ts` lines 291-329 and
337-363); returns the new list and the updated record, `none` if absent. -/
def updateFirst (f : PropertyWithId → PropertyWithId) (id : String) :
    List PropertyWithId → List PropertyWithId × Option PropertyWithId
  | [] => ([], none)
  | p :: rest =>
      if p.id == id then (f p :: rest, some (f p))
      else
        let r := updateFirst f id rest
        (p :: r.1, r.2)

/-- Record-level rating replacement (`src/lib/storage.ts` lines 239-254):
replace the first rating of `userId` keeping its `userId`, else push a new
entry at the end. -/
def replaceFirstRating (userId : String) (rd : RatingData) (now : String) :
    List UserRating → List UserRating
  | [] => [{ userId := userId, score := rd.score, comment := rd.comment, updatedAt := now }]
  | r :: rest =>
      if r.userId == userId then
        { userId := r.userId, score := rd.score, comment := rd.comment, updatedAt := now } :: rest
      else r :: replaceFirstRating userId rd now rest

/-- Dedicated rating operation applied to one record (`updateRating`,
`src/lib/storage.ts` lines 227-258). -/
def applyRating (userId : String) (rd : RatingData) (now : String)
    (p : PropertyWithId) : PropertyWithId :=
  { p with ratings := replaceFirstRating userId rd now p.ratings }

/-- Dedicated status operation applied to one record (`updatePropertyStatus`,
`src/lib/storage.ts` lines 261-278). -/
def applyStatus (status : PropertyStatus) (p : PropertyWithId) : PropertyWithId :=
  { p with status := status }

/-- `addProperty` (`src/lib/storage.ts` lines 205-224): return an existing
record with the same URL unchanged, else prepend a fresh record. -/
def addProperty (db : Db) (property : PropertyData) (freshId now : String) :
    Db × PropertyWithId :=
  match db.properties.find? (fun p => p.url == property.url) with
  | some existing => (db, existing)
  | none =>
      let newProperty : PropertyWithId :=
        { toPropertyData := property
          id := freshId
          createdAt := now
          status := .considering
          ratings := []
          manuallyEditedFields := none }
      ({ db with properties := newProperty :: db.properties }, newProperty)

/-- `updateRating` (`src/lib/storage.ts` lines 227-258): `none` when the id
is unknown, in which case nothing is written. -/
def updateRating (db : Db) (id userId : String) (ratingData : RatingData)
    (now : String) : Db × Option PropertyWithId :=
  let r := updateFirst (applyRating userId ratingData now) id db.properties
  match r.2 with
  | none => (db, none)
  | some p => ({ db with properties := r.1 }, some p)

/-- `updatePropertyStatus` (`src/lib/storage.ts` lines 261-278): `none` when
the id is unknown, in which case nothing is written. -/
def updatePropertyStatus (db : Db) (id : String) (status : PropertyStatus) :
    Db × Option PropertyWithId :=
  let r := updateFirst (applyStatus status) id db.properties
  match r.2 with
  | none => (db, none)
  | some p => ({ db with properties := r.1 }, some p)

/-- `deleteProperty` (`src/lib/storage.ts` lines 282-286): filter the id out
and save; the function returns nothing and reports nothing when the id was
absent. -/
def deleteProperty (db : Db) (id : String) : Db :=
  { db with properties := db.properties.filter (fun p => p.id != id) }

/-- `refreshProperty` (`src/lib/storage.ts` lines 289-330): `none` when the
id is unknown (nothing written), else the refresh merge of the matching
record. -/
def refreshProperty (db : Db) (id : String) (data : PropertyData) :
    Db × Option PropertyWithId :=
  let r := updateFirst (fun c => refreshMerge c data) id db.properties
  match r.2 with
  | none => (db, none)
  | some p => ({ db with properties := r.1 }, some p)

/-- `updateProperty` (`src/lib/storage.ts` lines 332-364): `none` when the
id is unknown (nothing written), else the manual-edit merge of the matching
record. -/
def updateProperty (db : Db) (id : String) (updates : PropertyUpdate) :
    Db × Option PropertyWithId :=
  let r := updateFirst (fun c => updateMerge c updates) id db.properties
  match r.2 with
  | none => (db, none)
  | some p => ({ db with properties := r.1 }, some p)

/-! ### Schema migration (`migrateDb`, `src/lib/storage.ts` lines 103-192)

The migrator runs on the raw parsed JSON, whose shape may predate the
current data model.  The legacy possibilities that the code inspects are
modelled as explicit sums: ratings may be absent, a legacy two-partner
bundle, or a list; settings may lack users, loan, or be absent entirely. -/

/-- One legacy partner rating (`oldRatings.partnerA` / `partnerB`): a
possibly-`null` score and a comment (absent modelled as `""`, which is
falsy exactly like `undefined` under the `score || comment` test). -/
structure OldRating where
  score : Option Score := none
  comment : String := ""
deriving DecidableEq

/-- Shape of `prop.ratings` as found on disk. -/
inductive RatingsShape where
  | missing
  | legacy (partnerA partnerB : Option OldRating)
  | list (ratings : List UserRating)
deriving DecidableEq

/-- A stored property as the migrator sees it: only `createdAt` and
`ratings` are read or written by `migrateDb`; all other fields pass
through untouched and are omitted from this view. -/
structure MProp where
  createdAt : String
  ratings : RatingsShape
deriving DecidableEq

/-- Legacy partner entry in old settings (`oldSettings.partnerA`): `name`
and `icon` may be absent or empty; both cases fall back to the default
under `|| 'default'`. -/
structure PartnerCfg where
  name : Option String := none
  icon : Option String := none
deriving DecidableEq

/-- Settings as found on disk: `users` and `loan` may be absent, and the
legacy two-partner fields may be present. -/
structure MSettings where
  users : Option (List UserConfig) := none
  loan : Option LoanSettings := none
  partnerA : Option PartnerCfg := none
  partnerB : Option PartnerCfg := none
deriving DecidableEq

/-- The raw persisted collection as the migrator sees it. -/
structure MDb where
  settings : Option MSettings := none
  properties : Option (List MProp) := none
deriving DecidableEq

/-- JavaScript `x || d` for an optional string: absent and empty are falsy. -/
def jsOrStr (v : Option String) (d : String) : String :=
  match v with
  | some s => if s = "" then d else s
  | none => d

/-- Default loan bundle (`defaultDb.settings.loan`,
`src/lib/storage.ts` lines 56-60). -/
def defaultLoan : LoanSettings where
  interestRate := 0.5
  termYears := 35
  downPayment := 0

/-- Default user list (`defaultDb.settings.users`,
`src/lib/storage.ts` lines 53-55). -/
def defaultUser : UserConfig where
  id := "u1"
  name := "ユーザー1"
  icon := "👤"

/-- Settings rebuild when users are missing or empty
(`src/lib/storage.ts` lines 116-134): synthesize users from the legacy
partners (default user if none), install the default loan; the new
settings object carries only `users` and `loan`. -/
def rebuildSettings (oldSettings : MSettings) : MSettings × Bool :=
  let users :=
    (match oldSettings.partnerA with
     | some pa => [{ id := "u1", name := jsOrStr pa.name "ユーザー1", icon := jsOrStr pa.icon "👤" }]
     | none => []) ++
    (match oldSettings.partnerB with
     | some pb => [{ id := "u2", name := jsOrStr pb.name "ユーザー2", icon := jsOrStr pb.icon "👤" }]
     | none => [])
  let users := if users.isEmpty then [defaultUser] else users
  ({ users := some users, loan := some defaultLoan }, true)

/-- Settings migration step (`src/lib/storage.ts` lines 115-138): rebuild
when users are missing/empty, else install the default loan when absent,
else leave unchanged. -/
def migrateSettings : Option MSettings → MSettings × Bool
  | none => rebuildSettings {}
  | some s =>
      match s.users with
      | none => rebuildSettings s
      | some [] => rebuildSettings s
      | some (_ :: _) =>
          match s.loan with
          | none => ({ s with loan := some defaultLoan }, true)
          | some _ => (s, false)

/-- Ratings migration for one property (`src/lib/storage.ts` lines
143-177): a legacy bundle becomes a list (each present, non-empty partner
rating tagged `u1`/`u2` with the property's `createdAt` as timestamp);
absent ratings become `[]`; a list gets legacy `user-a`/`user-b` ids
rewritten.  The boolean reports whether anything changed. -/
def migrateRatings (createdAt : String) : RatingsShape → RatingsShape × Bool
  | .legacy pa pb =>
      let fromA :=
        match pa with
        | some a =>
            if a.score.isSome || a.comment != "" then
              [{ userId := "u1", score := a.score, comment := a.comment, updatedAt := createdAt }]
            else []
        | none => []
      let fromB :=
        match pb with
        | some b =>
            if b.score.isSome || b.comment != "" then
              [{ userId := "u2", score := b.score, comment := b.comment, updatedAt := createdAt }]
            else []
        | none => []
      (.list (fromA ++ fromB), true)
  | .missing => (.list [], true)
  | .list rs =>
      let fixed := rs.map fun r =>
        if r.userId == "user-a" then { r with userId := "u1" }
        else if r.userId == "user-b" then { r with userId := "u2" }
        else r
      (.list fixed, rs.any fun r => r.userId == "user-a" || r.userId == "user-b")

/-- Property migration loop (`src/lib/storage.ts` lines 141-179): skipped
when `properties` is absent. -/
def migrateProps : Option (List MProp) → Option (List MProp) × Bool
  | none => (none, false)
  | some props =>
      let results := props.map fun p =>
        let r := migrateRatings p.createdAt p.ratings
        ({ p with ratings := r.1 }, r.2)
      (some (results.map (·.1)), results.any (·.2))

/-- Rewrite of legacy ids in the settings user list
(`src/lib/storage.ts` lines 182-187). -/
def fixUserIds (users : List UserConfig) : List UserConfig × Bool :=
  (users.map fun u =>
     if u.id == "user-a" then { u with id := "u1" }
     else if u.id == "user-b" then { u with id := "u2" }
     else u,
   users.any fun u => u.id == "user-a" || u.id == "user-b")

/-- The full migrator (`migrateDb`, `src/lib/storage.ts` lines 103-192):
settings step, property loop, settings-id fix, in that order; the boolean
is the `changed` flag — the store is rewritten exactly when it is `true`. -/
def migrateDb (db : MDb) : MDb × Bool :=
  let s := migrateSettings db.settings
  let p := migrateProps db.properties
  let u :=
    match s.1.users with
    | some us =>
        let f := fixUserIds us
        ((some f.1 : Option (List UserConfig)), f.2)
    | none => (s.1.users, false)
  ({ settings := some { s.1 with users := u.1 }, properties := p.1 },
   s.2 || p.2 || u.2)

/-- Decidable current-shape test used by the idempotence claim: settings
present with a non-empty user list free of legacy ids and with a loan
bundle; every property's ratings already a list free of legacy ids. -/
def currentRatings : RatingsShape → Bool
  | .list rs => rs.all fun r => r.userId != "user-a" && r.userId != "user-b"
  | _ => false

/-- Current shape of a whole raw collection (see `currentRatings`). -/
def currentShape (db : MDb) : Bool :=
  match db.settings with
  | none => false
  | some s =>
      (match s.users with
       | some (u :: us) => (u :: us).all fun v => v.id != "user-a" && v.id != "user-b"
       | _ => false) &&
      s.loan.isSome &&
      (db.properties.getD []).all fun p => currentRatings p.ratings

/-! ### Scraper heuristics (`src/lib/scraper.ts`)

The effectful `scrapeProperty` is modelled piecewise: the pure text
heuristics take the relevant page content (body text as `List Char`, the
`og:image` attribute, the per-selector image sources) as explicit inputs.
Regular expressions are modelled by direct scanning functions that
reproduce the JS engine's leftmost-match, ordered-alternation and
greedy-with-backtracking semantics for the concrete patterns involved;
each model notes the pattern it implements. -/

/-- Numeric value of a digit string (the JS `parseInt(_, 10)` on an
all-digit capture). -/
def digitsVal (ds : List Char) : Nat :=
  ds.foldl (fun n c => 10 * n + (c.toNat - '0'.toNat)) 0

/-- JS line terminators, the characters `.` does not match:
LF, CR, U+2028, U+2029. -/
def isLineTerm (c : Char) : Bool :=
  c == '\n' || c == '\r' || c.toNat == 0x2028 || c.toNat == 0x2029

/-- JS `\s` whitespace class (space, tab, line terminators, vertical tab,
form feed, NBSP, Ogham space, U+2000-200A, LS, PS, NNBSP, MMSP,
ideographic space, BOM). -/
def jsWs (c : Char) : Bool :=
  c == ' ' || c == '\t' || c == '\n' || c == '\r' ||
  c.toNat == 0x0b || c.toNat == 0x0c ||
  c.toNat == 0xa0 || c.toNat == 0x1680 ||
  (0x2000 ≤ c.toNat && c.toNat ≤ 0x200A) ||
  c.toNat == 0x2028 || c.toNat == 0x2029 || c.toNat == 0x202F ||
  c.toNat == 0x205F || c.toNat == 0x3000 || c.toNat == 0xFEFF

/-- Match a literal string at the head of the input, returning the
remainder on success. -/
def dropLit : List Char → List Char → Option (List Char)
  | [], cs => some cs
  | _ :: _, [] => none
  | p :: ps, c :: cs => if c = p then dropLit ps cs else none

/-- Four digits at the head of the input (`[0-9]{4}` at one position),
with their value. -/
def digit4At (cs : List Char) : Option Nat :=
  match cs with
  | a :: b :: c :: d :: _ =>
      if a.isDigit && b.isDigit && c.isDigit && d.isDigit then
        some (digitsVal [a, b, c, d])
      else none
  | _ => none

/-- The lazy gap of `/.*?([0-9]{4})/`: scan forward for the first position
holding four digits, failing on a line terminator (which `.` cannot
match). -/
def findDigits4 : List Char → Option Nat
  | [] => none
  | c :: rest =>
      match digit4At (c :: rest) with
      | some y => some y
      | none => if isLineTerm c then none else findDigits4 rest

/-- The label alternation `(?:築年月|竣工|建築)` at one position, in the
regex's order. -/
def labelAt (cs : List Char) : Option (List Char) :=
  match dropLit "築年月".data cs with
  | some rest => some rest
  | none =>
      match dropLit "竣工".data cs with
      | some rest => some rest
      | none => dropLit "建築".data cs

/-- `bodyText.match(/(?:築年月|竣工|建築).*?([0-9]{4})/)`
(`src/lib/scraper.ts` line 181): leftmost position where a label is
followed, on the same line, by four digits; returns the digits. -/
def explicitYear : List Char → Option Nat
  | [] => none
  | c :: rest =>
      match labelAt (c :: rest) with
      | some after =>
          match findDigits4 after with
          | some y => some y
          | none => explicitYear rest
      | none => explicitYear rest

/-- `bodyText.matchAll(/([0-9]{4})年/g)` (`src/lib/scraper.ts` line 185):
non-overlapping scan collecting every 4-digit-plus-`年` token; on a match
the engine's `lastIndex` moves past the five matched characters. -/
def yearTokens : List Char → List Nat
  | a :: b :: c :: d :: e :: tail =>
      if a.isDigit && b.isDigit && c.isDigit && d.isDigit && e == '年' then
        digitsVal [a, b, c, d] :: yearTokens tail
      else yearTokens (b :: c :: d :: e :: tail)
  | _ => []

/-- The year tokens kept by the range filter `y > 1900 && y <= currentYear`
(`src/lib/scraper.ts` line 189). -/
def validYears (currentYear : Nat) (cs : List Char) : List Nat :=
  (yearTokens cs).filter fun y => decide (1900 < y) && decide (y ≤ currentYear)

/-- `bodyText.match(/築([0-9]+)年/)` (`src/lib/scraper.ts` line 194):
first `築` followed by a digit run whose maximal extent is followed by
`年` (greedy `[0-9]+` with backtracking: a shorter prefix is always
followed by another digit, never by `年`, so only the maximal run can
close the match). -/
def relativeAge : List Char → Option Nat
  | [] => none
  | c :: rest =>
      if c = '築' then
        let ds := rest.takeWhile Char.isDigit
        if ds.isEmpty then relativeAge rest
        else
          match rest.drop ds.length with
          | '年' :: _ => some (digitsVal ds)
          | _ => relativeAge rest
      else relativeAge rest

/-- The construction-year heuristic (`src/lib/scraper.ts` lines 181-200):
prefer an explicitly labeled year; else the minimum
(`Math.min(...validYears)`) of the in-range year tokens; else
`currentYear - N` for a relative `築N年`; else unset. -/
def extractYearBuilt (currentYear : Nat) (cs : List Char) : Option Int :=
  match explicitYear cs with
  | some y => some (y : Int)
  | none =>
      match validYears currentYear cs with
      | v :: vs => some ((vs.foldl Nat.min v : Nat) : Int)
      | [] =>
          match relativeAge cs with
          | some n => some ((currentYear : Int) - (n : Int))
          | none => none

/-- Boolean list-prefix test on characters. -/
def isPreOf : List Char → List Char → Bool
  | [], _ => true
  | _ :: _, [] => false
  | p :: ps, c :: cs => p == c && isPreOf ps cs

/-- JS `hay.includes(needle)` substring test. -/
def hasSub (hay needle : List Char) : Bool :=
  if isPreOf needle hay then true
  else
    match hay with
    | [] => false
    | _ :: t => hasSub t needle

/-- One gallery image considered for inclusion (`src/lib/scraper.ts` lines
140-144): `src` is the first non-empty attribute among
`rel`/`data-src`/`data-original`/`src` (`none` when all are null); it is
pushed when non-empty, absolute (`src.startsWith('http')`, modelled by the
character-list test `isPreOf`), not already collected, and not a spacer. -/
def addGalleryImg (acc : List String) (src? : Option String) : List String :=
  match src? with
  | none => acc
  | some src =>
      if src != "" && isPreOf "http".data src.data && !(acc.contains src) &&
         !(hasSub src.data "spacer.gif".data) then
        acc ++ [src]
      else acc

/-- The per-selector loop (`src/lib/scraper.ts` lines 136-147): before each
selector the count is checked against 12; inside a selector every image is
considered with no further count check. -/
def collectGalleries (acc : List String) : List (List (Option String)) → List String
  | [] => acc
  | g :: rest =>
      if acc.length ≥ 12 then acc
      else collectGalleries (g.foldl addGalleryImg acc) rest

/-- The unconditional `og:image` push (`src/lib/scraper.ts` lines
120-121): any truthy content is taken as the first image, with none of
the gallery checks. -/
def ogInit : Option String → List String
  | some s => if s != "" then [s] else []
  | none => []

/-- The whole image-gathering pass (`src/lib/scraper.ts` lines 119-147):
the `og:image` content is pushed first whenever truthy — with no
absolute-URL, duplicate or spacer check — then the gallery selectors are
processed in order. -/
def collectImages (og : Option String) (galleries : List (List (Option String))) :
    List String :=
  collectGalleries (ogInit og) galleries

/-! ### Numeric normalizer (`parseJapaneseNumber`, `src/lib/scraper.ts`
lines 26-38) -/

/-- A JS number restricted to what `parseFloat` arithmetic produces here:
an exact rational or `NaN`. -/
inductive JsNum where
  | nan
  | val (q : Rat)
deriving DecidableEq

/-- JS multiplication: `NaN` propagates. -/
def jsMul : JsNum → JsNum → JsNum
  | .val a, .val b => .val (a * b)
  | _, _ => .nan

/-- JS addition: `NaN` propagates. -/
def jsAdd : JsNum → JsNum → JsNum
  | .val a, .val b => .val (a + b)
  | _, _ => .nan

/-- JS `x || 0` on a number: `NaN` (and `0` itself) map to `0`. -/
def jsOrZero : JsNum → JsNum
  | .nan => .val 0
  | .val q => .val q

/-- The character class `[0-9.]` of the number regex. -/
def isNumChar (c : Char) : Bool :=
  c.isDigit || c == '.'

/-- Value of a fraction digit string (the part after the decimal point). -/
def fracVal (ds : List Char) : Rat :=
  (digitsVal ds : Rat) / ((10 : Rat) ^ ds.length)

/-- JS `parseFloat` restricted to arguments over the alphabet `[0-9.]` —
exactly the capture groups this code feeds it: the longest valid prefix
`digits [. digits]` or `. digits` is the value; no valid prefix (empty or
dots-only input) gives `NaN`. -/
def parseFloatNum (cs : List Char) : JsNum :=
  let intPart := cs.takeWhile Char.isDigit
  match cs.dropWhile Char.isDigit with
  | '.' :: rest2 =>
      let frac := rest2.takeWhile Char.isDigit
      if intPart.isEmpty && frac.isEmpty then .nan
      else .val ((digitsVal intPart : Rat) + fracVal frac)
  | _ => if intPart.isEmpty then .nan else .val (digitsVal intPart)

/-- The two alternatives of
`/([0-9\.]+)\s*万\s*([0-9\.]*)|([0-9\.]+)/`: the 万-form with its two
capture groups, or the bare token. -/
inductive NumMatch where
  | man (g1 g2 : List Char)
  | bare (g3 : List Char)
deriving DecidableEq

/-- The regex alternation tried at a position whose head is a `[0-9.]`
character.  Greedy `([0-9\.]+)` takes the maximal token: under
backtracking a shorter prefix is followed by another `[0-9.]` character,
which neither `\s` nor `万` matches, so only the maximal token can close
alternative 1; likewise `\s*` extends to the maximal whitespace run.  When
`万` does not follow, alternative 2 matches the same maximal token. -/
def matchAt (cs : List Char) : NumMatch :=
  let tok := cs.takeWhile isNumChar
  let afterWs := (cs.dropWhile isNumChar).dropWhile jsWs
  if afterWs.head? = some '万' then
    .man tok (((afterWs.drop 1).dropWhile jsWs).takeWhile isNumChar)
  else .bare tok

/-- Leftmost match of the number regex: both alternatives start with a
`[0-9.]` character, so the match begins at the first such character. -/
def firstNumMatch : List Char → Option NumMatch
  | [] => none
  | c :: rest =>
      if isNumChar c then some (matchAt (c :: rest)) else firstNumMatch rest

/-- `parseJapaneseNumber` (`src/lib/scraper.ts` lines 26-38): falsy input
gives `0`; commas are stripped; on a 万-match the result is
`parseFloat(g1) * 10000` plus `parseFloat(g2)` (`0` for an empty second
group, with no `|| 0` guard on the sum); on a bare match
`parseFloat(g3) || 0`; no match gives `0`. -/
def parseJapaneseNumber (val : String) : JsNum :=
  if val = "" then .val 0
  else
    match firstNumMatch (val.data.filter fun c => c != ',') with
    | none => .val 0
    | some (.man g1 g2) =>
        jsAdd (jsMul (parseFloatNum g1) (.val 10000))
          (if g2.isEmpty then JsNum.val 0 else parseFloatNum g2)
    | some (.bare g3) => jsOrZero (parseFloatNum g3)

/-! ### Concrete instances used by witnesses and counterexamples -/

/-- Default settings (`defaultDb.settings`, `src/lib/storage.ts` lines 52-61). -/
def defaultSettings : UserSettings where
  users := [defaultUser]
  loan := defaultLoan

/-- A stored record with no manual edits and no optional data. -/
def baseProp : PropertyWithId where
  title := "物件A"
  price := "5000万円"
  url := "https://example.com/1"
  id := "p1"
  createdAt := "2024-01-01T00:00:00Z"
  status := .considering
  ratings := []

/-- A stored record whose protectable fields all carry values and are all
marked manually edited. -/
def cur0 : PropertyWithId :=
  { baseProp with
    price := "9999万円"
    area := some 70
    yearBuilt := some 1990
    units := some 10
    station := some "A駅"
    stationMinute := some 5
    parkingStatus := some "空有"
    fees := some { management := some 100, repair := some 200, parking := some 300 }
    manuallyEditedFields := some ["price", "area", "yearBuilt", "units", "station",
      "stationMinute", "parkingStatus", "fees.management", "fees.repair", "fees.parking"] }

/-- The same record with an empty manually-edited set. -/
def cur1 : PropertyWithId :=
  { cur0 with manuallyEditedFields := none }

/-- A fresh extraction carrying different values for every protectable field. -/
def data0 : PropertyData where
  title := "物件A(再取得)"
  price := "4444万円"
  url := "https://example.com/1"
  area := some 55
  yearBuilt := some 2001
  units := some 20
  station := some "B駅"
  stationMinute := some 9
  parkingStatus := some "空無"
  fees := some { management := some 111, repair := some 222, parking := some 333 }

/-- A manual-edit payload carrying a `status` key. -/
def statusUpd : PropertyUpdate where
  status := some .viewed

/-- A manual-edit payload touching only a content field. -/
def areaUpd : PropertyUpdate where
  area := some 60

/-- A fresh extraction whose fee bundle carries only a management fee. -/
def dataM : PropertyData where
  title := "物件A"
  price := "5000万円"
  url := "https://example.com/1"
  fees := some { management := some 50 }

/-- A manual-edit payload whose fee bundle carries only a management fee. -/
def updM : PropertyUpdate where
  fees := some { management := some 50 }

/-- A stored record with a repair fee on file. -/
def curR : PropertyWithId :=
  { baseProp with fees := some { repair := some 200 } }

/-- A one-record collection. -/
def dbW : Db where
  properties := [baseProp]
  settings := defaultSettings

/-- A raw collection that satisfies the claim's current-shape conditions
(non-empty users, loan present, all ratings lists without legacy ids) yet
still carries a legacy `user-a` id inside the settings user list. -/
def dbX : MDb where
  settings := some { users := some [{ id := "user-a", name := "A", icon := "i" }],
                     loan := some defaultLoan }
  properties := some []

/-- A migrated rating already carrying a canonical user id. -/
def okRating : UserRating where
  userId := "u1"
  score := some .good
  comment := "c"
  updatedAt := "t0"

/-- A raw collection fully in the current shape. -/
def dbCur : MDb where
  settings := some { users := some [defaultUser], loan := some defaultLoan }
  properties := some [{ createdAt := "t0", ratings := .list [okRating] }]

/-- A property carrying the legacy rating bundle of the migration claim. -/
def legacyPropEx (t : String) : MProp where
  createdAt := t
  ratings := .legacy (some { score := some .good, comment := "c" }) none

/-- The expected migrated form of `legacyPropEx`. -/
def migratedPropEx (t : String) : MProp where
  createdAt := t
  ratings := .list [{ userId := "u1", score := some .good, comment := "c", updatedAt := t }]

/-- A single gallery selector yielding thirteen distinct absolute URLs. -/
def exGallery : List (Option String) :=
  (List.range 13).map fun i => some ("http://img" ++ Nat.repr i)

/-! ## Theorems -/

/-- C1: Refresh-merge protection.  For every stored property and every
freshly extracted `PropertyData`: each protectable top-level field
(price, area, yearBuilt, units, station, stationMinute, parkingStatus)
whose name is in the record's manually-edited set keeps its stored value
under `refreshMerge`, and one whose name is not in the set is overwritten
with the freshly extracted value whenever the extraction carries one; the
same holds for each protectable fee sub-field. -/
theorem refresh_protects_manual_edits (current : PropertyWithId) (data : PropertyData) :
    ("price" ∈ current.manuallyEditedFields.getD [] →
      (refreshMerge current data).price = current.price) ∧
    ("price" ∉ current.manuallyEditedFields.getD [] →
      (refreshMerge current data).price = data.price) ∧
    ("area" ∈ current.manuallyEditedFields.getD [] →
      (refreshMerge current data).area = current.area) ∧
    (∀ v, "area" ∉ current.manuallyEditedFields.getD [] →
      data.area = some v → (refreshMerge current data).area = some v) ∧
    ("yearBuilt" ∈ current.manuallyEditedFields.getD [] →
      (refreshMerge current data).yearBuilt = current.yearBuilt) ∧
    (∀ v, "yearBuilt" ∉ current.manuallyEditedFields.getD [] →
      data.yearBuilt = some v → (refreshMerge current data).yearBuilt = some v) ∧
    ("units" ∈ current.manuallyEditedFields.getD [] →
      (refreshMerge current data).units = current.units) ∧
    (∀ v, "units" ∉ current.manuallyEditedFields.getD [] →
      data.units = some v → (refreshMerge current data).units = some v) ∧
    ("station" ∈ current.manuallyEditedFields.getD [] →
      (refreshMerge current data).station = current.station) ∧
    (∀ v, "station" ∉ current.manuallyEditedFields.getD [] →
      data.station = some v → (refreshMerge current data).station = some v) ∧
    ("stationMinute" ∈ current.manuallyEditedFields.getD [] →
      (refreshMerge current data).stationMinute = current.stationMinute) ∧
    (∀ v, "stationMinute" ∉ current.manuallyEditedFields.getD [] →
      data.stationMinute = some v → (refreshMerge current data).stationMinute = some v) ∧
    ("parkingStatus" ∈ current.manuallyEditedFields.getD [] →
      (refreshMerge current data).parkingStatus = current.parkingStatus) ∧
    (∀ v, "parkingStatus" ∉ current.manuallyEditedFields.getD [] →
      data.parkingStatus = some v → (refreshMerge current data).parkingStatus = some v) ∧
    ("fees.management" ∈ current.manuallyEditedFields.getD [] →
      feeManagement (refreshMerge current data) = feeManagement current) ∧
    (∀ f v, "fees.management" ∉ current.manuallyEditedFields.getD [] →
      data.fees = some f → f.management = some v →
      feeManagement (refreshMerge current data) = some v) ∧
    ("fees.repair" ∈ current.manuallyEditedFields.getD [] →
      feeRepair (refreshMerge current data) = feeRepair current) ∧
    (∀ f v, "fees.repair" ∉ current.manuallyEditedFields.getD [] →
      data.fees = some f → f.repair = some v →
      feeRepair (refreshMerge current data) = some v) ∧
    ("fees.parking" ∈ current.manuallyEditedFields.getD [] →
      feeParking (refreshMerge current data) = feeParking current) ∧
    (∀ f v, "fees.parking" ∉ current.manuallyEditedFields.getD [] →
      data.fees = some f → f.parking = some v →
      feeParking (refreshMerge current data) = some v) := by
  refine ⟨?_, ?_, ?_, ?_, ?_, ?_, ?_, ?_, ?_, ?_, ?_, ?_, ?_, ?_, ?_, ?_, ?_, ?_, ?_, ?_⟩
  · intro h; simp [refreshMerge, jsOverride, h]
  · intro h; simp [refreshMerge, jsOverride, h]
  · intro h; simp [refreshMerge, jsOverride, h]
  · intro v h hv; simp [refreshMerge, jsOverride, h, hv]
  · intro h; simp [refreshMerge, jsOverride, h]
  · intro v h hv; simp [refreshMerge, jsOverride, h, hv]
  · intro h; simp [refreshMerge, jsOverride, h]
  · intro v h hv; simp [refreshMerge, jsOverride, h, hv]
  · intro h; simp [refreshMerge, jsOverride, h]
  · intro v h hv; simp [refreshMerge, jsOverride, h, hv]
  · intro h; simp [refreshMerge, jsOverride, h]
  · intro v h hv; simp [refreshMerge, jsOverride, h, hv]
  · intro h; simp [refreshMerge, jsOverride, h]
  · intro v h hv; simp [refreshMerge, jsOverride, h, hv]
  · intro h
    cases hf : data.fees <;>
      simp [refreshMerge, feeManagement, mergeFees, feesOrEmpty, jsOverride, h, hf]
  · intro f v h hf hv
    simp [refreshMerge, feeManagement, mergeFees, feesOrEmpty, jsOverride, h, hf, hv]
  · intro h
    cases hf : data.fees <;>
      simp [refreshMerge, feeRepair, mergeFees, feesOrEmpty, jsOverride, h, hf]
  · intro f v h hf hv
    simp [refreshMerge, feeRepair, mergeFees, feesOrEmpty, jsOverride, h, hf, hv]
  · intro h
    cases hf : data.fees <;>
      simp [refreshMerge, feeParking, mergeFees, feesOrEmpty, jsOverride, h, hf]
  · intro f v h hf hv
    simp [refreshMerge, feeParking, mergeFees, feesOrEmpty, jsOverride, h, hf, hv]

/-- Witness for C1: `cur0` has every protectable field manually edited,
`cur1` none; the refresh against `data0` keeps each of `cur0`'s stored
values and overwrites each of `cur1`'s. -/
theorem refresh_protects_manual_edits_witness :
    ((refreshMerge cur0 data0).price = cur0.price ∧
     (refreshMerge cur0 data0).area = cur0.area ∧
     (refreshMerge cur0 data0).yearBuilt = cur0.yearBuilt ∧
     (refreshMerge cur0 data0).units = cur0.units ∧
     (refreshMerge cur0 data0).station = cur0.station ∧
     (refreshMerge cur0 data0).stationMinute = cur0.stationMinute ∧
     (refreshMerge cur0 data0).parkingStatus = cur0.parkingStatus ∧
     feeManagement (refreshMerge cur0 data0) = feeManagement cur0 ∧
     feeRepair (refreshMerge cur0 data0) = feeRepair cur0 ∧
     feeParking (refreshMerge cur0 data0) = feeParking cur0) ∧
    ((refreshMerge cur1 data0).price = data0.price ∧
     (refreshMerge cur1 data0).area = some 55 ∧
     (refreshMerge cur1 data0).yearBuilt = some 2001 ∧
     (refreshMerge cur1 data0).units = some 20 ∧
     (refreshMerge cur1 data0).station = some "B駅" ∧
     (refreshMerge cur1 data0).stationMinute = some 9 ∧
     (refreshMerge cur1 data0).parkingStatus = some "空無" ∧
     feeManagement (refreshMerge cur1 data0) = some 111 ∧
     feeRepair (refreshMerge cur1 data0) = some 222 ∧
     feeParking (refreshMerge cur1 data0) = some 333) := by
  obtain ⟨a1, a2, a3, a4, a5, a6, a7, a8, a9, a10, a11, a12, a13, a14, a15, a16, a17, a18, a19, a20⟩ :=
    refresh_protects_manual_edits cur0 data0
  obtain ⟨b1, b2, b3, b4, b5, b6, b7, b8, b9, b10, b11, b12, b13, b14, b15, b16, b17, b18, b19, b20⟩ :=
    refresh_protects_manual_edits cur1 data0
  exact ⟨⟨a1 (by decide), a3 (by decide), a5 (by decide), a7 (by decide), a9 (by decide),
          a11 (by decide), a13 (by decide), a15 (by decide), a17 (by decide), a19 (by decide)⟩,
         ⟨b2 (by decide), b4 55 (by decide) (by decide), b6 2001 (by decide) (by decide),
          b8 20 (by decide) (by decide), b10 "B駅" (by decide) (by decide),
          b12 9 (by decide) (by decide), b14 "空無" (by decide) (by decide),
          b16 { management := some 111, repair := some 222, parking := some 333 } 111 (by decide) (by decide) (by decide),
          b18 { management := some 111, repair := some 222, parking := some 333 } 222 (by decide) (by decide) (by decide),
          b20 { management := some 111, repair := some 222, parking := some 333 } 333 (by decide) (by decide) (by decide)⟩⟩

/-- C3: Fee-bundle partial merge.  In both merge modes, a stored repair
fee survives a merge whose incoming fee bundle carries only a management
fee: the bundle is merged key-by-key, never replaced wholesale. -/
theorem fees_partial_merge_preserves_repair (current : PropertyWithId) (data : PropertyData)
    (u : PropertyUpdate) (r m : Rat) (hr : feeRepair current = some r) :
    (data.fees = some { management := some m, repair := none, parking := none } →
      feeRepair (refreshMerge current data) = some r) ∧
    (u.fees = some { management := some m, repair := none, parking := none } →
      feeRepair (updateMerge current u) = some r) := by
  constructor
  · intro hd
    simpa [refreshMerge, feeRepair, mergeFees, feesOrEmpty, jsOverride, hd] using hr
  · intro hu
    simpa [updateMerge, feeRepair, mergeFees, feesOrEmpty, jsOverride, hu] using hr

/-- Witness for C3: a stored repair fee of 200 survives both a refresh and
a manual edit that carry only a management fee of 50. -/
theorem fees_partial_merge_preserves_repair_witness :
    feeRepair (refreshMerge curR dataM) = some 200 ∧
    feeRepair (updateMerge curR updM) = some 200 := by
  obtain ⟨h1, h2⟩ := fees_partial_merge_preserves_repair curR dataM updM 200 50 (by decide)
  exact ⟨h1 (by decide), h2 (by decide)⟩

/-- C2 counterexample: the claim says `updateProperty` leaves ratings and
status unchanged for every incoming payload, but the manual-edit merge
spreads the raw payload over the record, so a payload carrying a `status`
key overwrites the stored status (and likewise `ratings`, `id`,
`createdAt`). -/
theorem updateMerge_payload_overwrites_status :
    (updateMerge baseProp statusUpd).status = .viewed ∧
    baseProp.status = .considering ∧
    (updateMerge baseProp statusUpd).status ≠ baseProp.status := by
  decide

/-- C2 amended: the refresh merge always leaves `id`, `createdAt`,
`ratings` and `status` unchanged (its payload type carries no such keys);
the manual-edit merge leaves them unchanged whenever the payload does not
itself carry one of those keys; and the dedicated rating and status
operations touch only their own sub-field, preserving the other and the
identifier and creation timestamp. -/
theorem merge_frame_fields :
    (∀ (current : PropertyWithId) (data : PropertyData),
      (refreshMerge current data).id = current.id ∧
      (refreshMerge current data).createdAt = current.createdAt ∧
      (refreshMerge current data).ratings = current.ratings ∧
      (refreshMerge current data).status = current.status) ∧
    (∀ (current : PropertyWithId) (u : PropertyUpdate),
      u.id = none → u.createdAt = none → u.ratings = none → u.status = none →
      (updateMerge current u).id = current.id ∧
      (updateMerge current u).createdAt = current.createdAt ∧
      (updateMerge current u).ratings = current.ratings ∧
      (updateMerge current u).status = current.status) ∧
    (∀ (userId : String) (rd : RatingData) (now : String) (p : PropertyWithId),
      (applyRating userId rd now p).status = p.status ∧
      (applyRating userId rd now p).id = p.id ∧
      (applyRating userId rd now p).createdAt = p.createdAt) ∧
    (∀ (st : PropertyStatus) (p : PropertyWithId),
      (applyStatus st p).ratings = p.ratings ∧
      (applyStatus st p).id = p.id ∧
      (applyStatus st p).createdAt = p.createdAt) := by
  refine ⟨?_, ?_, ?_, ?_⟩
  · intro current data
    exact ⟨rfl, rfl, rfl, rfl⟩
  · intro current u h1 h2 h3 h4
    refine ⟨?_, ?_, ?_, ?_⟩ <;> simp [updateMerge, h1, h2, h3, h4]
  · intro userId rd now p
    exact ⟨rfl, rfl, rfl⟩
  · intro st p
    exact ⟨rfl, rfl, rfl⟩

/-- Witness for C2 amended: a payload touching only `area` leaves the
frame fields of `baseProp` unchanged under the manual-edit merge. -/
theorem merge_frame_fields_witness :
    (updateMerge baseProp areaUpd).id = baseProp.id ∧
    (updateMerge baseProp areaUpd).createdAt = baseProp.createdAt ∧
    (updateMerge baseProp areaUpd).ratings = baseProp.ratings ∧
    (updateMerge baseProp areaUpd).status = baseProp.status :=
  merge_frame_fields.2.1 baseProp areaUpd rfl rfl rfl rfl

/-- Helper: `updateFirst` finds nothing when no stored id matches. -/
theorem updateFirst_not_found (f : PropertyWithId → PropertyWithId) (id : String)
    (ps : List PropertyWithId) (h : ∀ p ∈ ps, p.id ≠ id) :
    updateFirst f id ps = (ps, none) := by
  induction ps with
  | nil => rfl
  | cons p rest ih =>
      have hp : ¬(p.id = id) := h p (List.mem_cons_self p rest)
      have hr := ih fun q hq => h q (List.mem_cons_of_mem p hq)
      simp [updateFirst, hp, hr]

/-- C8: Duplicate-URL policy.  When some stored property already has the
submitted URL (i.e. `find?` locates one), `addProperty` returns that
pre-existing record, the collection is unchanged, and the property count
does not change; the returned record is a stored one with the submitted
URL. -/
theorem addProperty_duplicate_url (db : Db) (property : PropertyData)
    (freshId now : String) (e : PropertyWithId)
    (h : db.properties.find? (fun p => p.url == property.url) = some e) :
    addProperty db property freshId now = (db, e) ∧
    (addProperty db property freshId now).1.properties.length = db.properties.length ∧
    e ∈ db.properties ∧ e.url = property.url := by
  have hmem : e ∈ db.properties := List.mem_of_find?_eq_some h
  have hurl := List.find?_some (p := fun q : PropertyWithId => q.url == property.url) h
  refine ⟨?_, ?_, hmem, by simpa using hurl⟩
  · simp [addProperty, h]
  · simp [addProperty, h]

/-- Witness for C8: re-submitting `baseProp`'s URL to the one-record
collection `dbW` returns `baseProp` itself and leaves the collection as
it was. -/
theorem addProperty_duplicate_url_witness :
    addProperty dbW { title := "dup", price := "1万円", url := "https://example.com/1" } "p9" "t9"
      = (dbW, baseProp) ∧
    (addProperty dbW { title := "dup", price := "1万円", url := "https://example.com/1" } "p9" "t9").1.properties.length
      = dbW.properties.length :=
  ⟨(addProperty_duplicate_url dbW _ "p9" "t9" baseProp (by decide)).1,
   (addProperty_duplicate_url dbW _ "p9" "t9" baseProp (by decide)).2.1⟩

/-- C9 counterexample: the claim says every update, delete or refresh on an
unknown identifier surfaces an explicit "no such record" outcome, but
`deleteProperty` has no such outcome: on an unknown id it behaves exactly
like a successful deletion — it filters nothing, saves, and returns the
collection with no failure indication — whereas `updateProperty` on the
same id does surface `none`. -/
theorem deleteProperty_not_found_silent :
    deleteProperty dbW "zzz" = dbW ∧ (updateProperty dbW "zzz" {}).2 = none :=
  ⟨rfl, rfl⟩

/-- C9 amended: `updateProperty`, `refreshProperty`, `updateRating` and
`updatePropertyStatus` surface an unknown identifier as an explicit `none`
and leave the stored collection unchanged; `deleteProperty` also leaves
the collection unchanged but completes silently, with no "no such record"
outcome. -/
theorem not_found_explicit_and_unchanged (db : Db) (id : String) (data : PropertyData)
    (u : PropertyUpdate) (rd : RatingData) (userId now : String) (st : PropertyStatus)
    (h : ∀ p ∈ db.properties, p.id ≠ id) :
    updateProperty db id u = (db, none) ∧
    refreshProperty db id data = (db, none) ∧
    updateRating db id userId rd now = (db, none) ∧
    updatePropertyStatus db id st = (db, none) ∧
    deleteProperty db id = db := by
  have h1 := updateFirst_not_found (fun c => updateMerge c u) id db.properties h
  have h2 := updateFirst_not_found (fun c => refreshMerge c data) id db.properties h
  have h3 := updateFirst_not_found (applyRating userId rd now) id db.properties h
  have h4 := updateFirst_not_found (applyStatus st) id db.properties h
  have h5 : db.properties.filter (fun p => p.id != id) = db.properties :=
    List.filter_eq_self.mpr fun p hp => by simpa using h p hp
  exact ⟨by simp [updateProperty, h1], by simp [refreshProperty, h2],
         by simp [updateRating, h3], by simp [updatePropertyStatus, h4],
         by simp [deleteProperty, h5]⟩

/-- Witness for C9 amended: the unknown id `"zzz"` against the one-record
collection `dbW`. -/
theorem not_found_explicit_and_unchanged_witness :
    updateProperty dbW "zzz" {} = (dbW, none) ∧
    refreshProperty dbW "zzz" dataM = (dbW, none) ∧
    updateRating dbW "zzz" "u1" { score := some .good, comment := "" } "t1" = (dbW, none) ∧
    updatePropertyStatus dbW "zzz" .viewed = (dbW, none) ∧
    deleteProperty dbW "zzz" = dbW :=
  not_found_explicit_and_unchanged dbW "zzz" dataM {} { score := some .good, comment := "" }
    "u1" "t1" .viewed (by decide)

/-- Helper: the legacy-id rewrite leaves a rating list without legacy ids
unchanged. -/
theorem map_fix_ratings_clean (rs : List UserRating)
    (h : ∀ r ∈ rs, r.userId ≠ "user-a" ∧ r.userId ≠ "user-b") :
    (rs.map fun r =>
      if r.userId == "user-a" then { r with userId := "u1" }
      else if r.userId == "user-b" then { r with userId := "u2" }
      else r) = rs := by
  induction rs with
  | nil => rfl
  | cons r rest ih =>
      have h1 := h r (List.mem_cons_self r rest)
      have hrest := ih fun q hq => h q (List.mem_cons_of_mem r hq)
      simp only [List.map_cons, h1.1, h1.2, if_neg, beq_iff_eq, ite_false]
      simp [h1.1, h1.2]
      simpa using hrest

/-- Helper: no legacy id is detected in a rating list without legacy ids. -/
theorem any_legacy_rating_false (rs : List UserRating)
    (h : ∀ r ∈ rs, r.userId ≠ "user-a" ∧ r.userId ≠ "user-b") :
    (rs.any fun r => r.userId == "user-a" || r.userId == "user-b") = false := by
  induction rs with
  | nil => rfl
  | cons r rest ih =>
      have h1 := h r (List.mem_cons_self r rest)
      have hrest := ih fun q hq => h q (List.mem_cons_of_mem r hq)
      simp [h1.1, h1.2]
      simpa using hrest

/-- Helper: the ratings migration step is the identity (and reports no
change) on a property whose ratings are already a legacy-free list. -/
theorem migrateRatings_clean (p : MProp) (hp : currentRatings p.ratings = true) :
    migrateRatings p.createdAt p.ratings = (p.ratings, false) := by
  cases hpr : p.ratings with
  | missing => rw [hpr] at hp; simp [currentRatings] at hp
  | legacy a b => rw [hpr] at hp; simp [currentRatings] at hp
  | list rs =>
      rw [hpr] at hp
      simp only [currentRatings, List.all_eq_true] at hp
      have h : ∀ r ∈ rs, r.userId ≠ "user-a" ∧ r.userId ≠ "user-b" := by
        intro r hr
        have := hp r hr
        simpa using this
      simp only [migrateRatings]
      rw [map_fix_ratings_clean rs h, any_legacy_rating_false rs h]

/-- Helper: the property loop is the identity (and reports no change) on a
list of properties whose ratings are already legacy-free lists. -/
theorem migrateProps_clean (props : List MProp)
    (h : ∀ p ∈ props, currentRatings p.ratings = true) :
    migrateProps (some props) = (some props, false) := by
  simp only [migrateProps, Prod.mk.injEq, Option.some.injEq]
  induction props with
  | nil => simp
  | cons p rest ih =>
      have hp := migrateRatings_clean p (h p (List.mem_cons_self p rest))
      have hr := ih fun q hq => h q (List.mem_cons_of_mem p hq)
      simp [hp, hr.1, hr.2]

/-- Helper: the settings-id fix is the identity (and reports no change) on
a user list without legacy ids. -/
theorem fixUserIds_clean (us : List UserConfig)
    (h : ∀ u ∈ us, u.id ≠ "user-a" ∧ u.id ≠ "user-b") :
    fixUserIds us = (us, false) := by
  simp only [fixUserIds, Prod.mk.injEq]
  induction us with
  | nil => simp
  | cons u rest ih =>
      have h1 := h u (List.mem_cons_self u rest)
      have hr := ih fun q hq => h q (List.mem_cons_of_mem u hq)
      refine ⟨?_, ?_⟩ <;> simp [h1.1, h1.2]
      · simpa using hr.1
      · simpa using hr.2

/-- C6 counterexample: `dbX` satisfies every condition the claim's
"current shape" names — settings present with a non-empty user list and a
loan bundle, and every property's ratings a legacy-free list — yet the
migrator changes it and reports `changed = true` (triggering a rewrite),
because step 5 still rewrites the legacy `user-a` id inside the settings
user list, a condition the claim omits. -/
theorem migrateDb_rewrites_current_shape_cex :
    dbX.settings = some { users := some [{ id := "user-a", name := "A", icon := "i" }],
                          loan := some defaultLoan } ∧
    dbX.properties = some [] ∧
    (migrateDb dbX).2 = true ∧
    (migrateDb dbX).1 ≠ dbX := by
  refine ⟨rfl, rfl, rfl, ?_⟩
  intro heq
  have h : (["u1"] : List String) = ["user-a"] :=
    congrArg (fun d : MDb => ((d.settings.bind fun s : MSettings => s.users).getD []).map fun u : UserConfig => u.id) heq
  simp at h

/-- C6 amended: on a collection already in the current shape — settings
present with a non-empty user list containing no legacy `user-a`/`user-b`
ids and with a loan bundle, and every property's ratings a legacy-free
list — the migrator changes nothing and reports no change (so no rewrite
is triggered), and running it twice equals running it once. -/
theorem migrateDb_idempotent_on_current (db : MDb) (s : MSettings) (us : List UserConfig)
    (hs : db.settings = some s)
    (hu : s.users = some us)
    (hne : us ≠ [])
    (hids : ∀ u ∈ us, u.id ≠ "user-a" ∧ u.id ≠ "user-b")
    (hloan : s.loan.isSome = true)
    (hprops : ∀ p ∈ db.properties.getD [], currentRatings p.ratings = true) :
    migrateDb db = (db, false) ∧ migrateDb (migrateDb db).1 = migrateDb db := by
  have hmain : migrateDb db = (db, false) := by
    obtain ⟨dbs, dbp⟩ := db
    simp only at hs hprops
    subst hs
    obtain ⟨su, sl, spa, spb⟩ := s
    simp only at hu hloan
    subst hu
    obtain ⟨l, rfl⟩ : ∃ l, sl = some l := by
      cases sl with
      | none => simp at hloan
      | some l => exact ⟨l, rfl⟩
    obtain ⟨u, urest, rfl⟩ : ∃ u urest, us = u :: urest := by
      cases us with
      | nil => exact absurd rfl hne
      | cons u urest => exact ⟨u, urest, rfl⟩
    have hset : migrateSettings (some ⟨some (u :: urest), some l, spa, spb⟩)
        = (⟨some (u :: urest), some l, spa, spb⟩, false) := rfl
    have hfix := fixUserIds_clean (u :: urest) hids
    have hpr : migrateProps dbp = (dbp, false) := by
      cases dbp with
      | none => rfl
      | some props => exact migrateProps_clean props (by simpa using hprops)
    simp [migrateDb, hset, hfix, hpr]
  exact ⟨hmain, by rw [hmain]; exact hmain⟩

/-- Witness for C6 amended: the concrete current-shape collection `dbCur`
is a fixed point of the migrator, with no rewrite. -/
theorem migrateDb_idempotent_on_current_witness :
    migrateDb dbCur = (dbCur, false) ∧ migrateDb (migrateDb dbCur).1 = migrateDb dbCur :=
  migrateDb_idempotent_on_current dbCur
    { users := some [defaultUser], loan := some defaultLoan }
    [defaultUser] rfl rfl (by decide) (by decide) rfl (by decide)

/-- C7: Migration of a legacy rating bundle.  A property whose ratings are
the legacy bundle `{partnerA: {score: good, comment: "c"}}` migrates, for
any settings and any creation timestamp, to a ratings list with exactly
one entry: user id `u1`, score `good`, comment `"c"`, and `updatedAt`
equal to the property's `createdAt`. -/
theorem migrate_legacy_rating_to_list (st : Option MSettings) (t : String) :
    (migrateDb { settings := st, properties := some [legacyPropEx t] }).1.properties
      = some [migratedPropEx t] := by
  simp [migrateDb, migrateProps, migrateRatings, legacyPropEx, migratedPropEx]

/-- Helper: a left fold by `Nat.min` lands in the seed-plus-list. -/
theorem foldl_min_mem (vs : List Nat) (v : Nat) : vs.foldl Nat.min v ∈ v :: vs := by
  induction vs generalizing v with
  | nil => simp
  | cons a rest ih =>
      simp only [List.foldl_cons]
      rcases List.mem_cons.mp (ih (Nat.min v a)) with h1 | h1
      · rw [h1]
        have hm : Nat.min v a = v ∨ Nat.min v a = a := by
          unfold Nat.min; omega
        rcases hm with hm | hm <;> rw [hm]
        · exact List.mem_cons_self v (a :: rest)
        · exact List.mem_cons_of_mem v (List.mem_cons_self a rest)
      · exact List.mem_cons_of_mem v (List.mem_cons_of_mem a h1)

/-- Helper: a left fold by `Nat.min` is a lower bound of the
seed-plus-list. -/
theorem foldl_min_le (vs : List Nat) (v : Nat) : ∀ y ∈ v :: vs, vs.foldl Nat.min v ≤ y := by
  induction vs generalizing v with
  | nil =>
      intro y hy
      simp only [List.mem_singleton] at hy
      subst hy
      simp
  | cons a rest ih =>
      intro y hy
      simp only [List.foldl_cons]
      have hb : rest.foldl Nat.min (Nat.min v a) ≤ Nat.min v a :=
        ih (Nat.min v a) (Nat.min v a) (List.mem_cons_self _ _)
      have hl : Nat.min v a ≤ v := by unfold Nat.min; omega
      have hr : Nat.min v a ≤ a := by unfold Nat.min; omega
      rcases List.mem_cons.mp hy with h1 | h1
      · subst h1; exact Nat.le_trans hb hl
      · rcases List.mem_cons.mp h1 with h2 | h2
        · subst h2; exact Nat.le_trans hb hr
        · exact ih (Nat.min v a) y (List.mem_cons_of_mem _ h2)

/-- C5: Construction-year heuristic.  For every body text: an explicitly
labeled built/completed year, when present, is the result; otherwise the
result is the minimum of the 4-digit year tokens in `(1900, currentYear]`
when any exist; otherwise `currentYear - N` for a relative `築N年`
expression.  Concretely, a body containing 2015 and 2003 yields 2003, and
an explicit `築年月 2010` label overrides any other year found. -/
theorem yearBuilt_heuristic :
    (∀ (currentYear : Nat) (cs : List Char) (y : Nat),
       explicitYear cs = some y → extractYearBuilt currentYear cs = some (y : Int)) ∧
    (∀ (currentYear : Nat) (cs : List Char),
       explicitYear cs = none → validYears currentYear cs ≠ [] →
       ∃ m : Nat, extractYearBuilt currentYear cs = some (m : Int) ∧
         m ∈ validYears currentYear cs ∧ ∀ y ∈ validYears currentYear cs, m ≤ y) ∧
    (∀ (currentYear : Nat) (cs : List Char) (n : Nat),
       explicitYear cs = none → validYears currentYear cs = [] → relativeAge cs = some n →
       extractYearBuilt currentYear cs = some ((currentYear : Int) - (n : Int))) ∧
    extractYearBuilt 2025 "2015年はリフォーム、2003年に完成".data = some 2003 ∧
    extractYearBuilt 2025 "築年月:2010年 ほかに2003年の改修".data = some 2010 := by
  refine ⟨?_, ?_, ?_, by decide, by decide⟩
  · intro cy cs y h
    simp [extractYearBuilt, h]
  · intro cy cs h hne
    cases hv : validYears cy cs with
    | nil => exact absurd hv hne
    | cons v vs =>
        refine ⟨vs.foldl Nat.min v, ?_, ?_, ?_⟩
        · simp [extractYearBuilt, h, hv]
        · exact foldl_min_mem vs v
        · exact foldl_min_le vs v
  · intro cy cs n h hv hr
    simp [extractYearBuilt, h, hv, hr]

/-- Witness for C5: an explicit `竣工1999` label is used; the body
`2003年と2015年` yields its minimal valid year; `築10年` yields
`2025 - 10`. -/
theorem yearBuilt_heuristic_witness :
    extractYearBuilt 2025 "竣工1999".data = some 1999 ∧
    (∃ m : Nat, extractYearBuilt 2025 "2003年と2015年".data = some (m : Int) ∧
       m ∈ validYears 2025 "2003年と2015年".data ∧
       ∀ y ∈ validYears 2025 "2003年と2015年".data, m ≤ y) ∧
    extractYearBuilt 2025 "築10年".data = some ((2025 : Int) - (10 : Int)) := by
  obtain ⟨h1, h2, h3, _, _⟩ := yearBuilt_heuristic
  exact ⟨h1 2025 "竣工1999".data 1999 (by decide),
         h2 2025 "2003年と2015年".data (by decide) (by decide),
         h3 2025 "築10年".data 10 (by decide) (by decide) (by decide)⟩

/-- Helper: one gallery-image step preserves distinctness. -/
theorem addGalleryImg_nodup (acc : List String) (s : Option String) (h : acc.Nodup) :
    (addGalleryImg acc s).Nodup := by
  match s with
  | none => simpa [addGalleryImg]
  | some src =>
      simp only [addGalleryImg]
      split
      · rename_i hcond
        simp only [Bool.and_eq_true, Bool.not_eq_true'] at hcond
        have hsrc : src ∉ acc := by
          have h3 := hcond.1.2
          simpa using h3
        simp [List.nodup_append, h, hsrc]
      · exact h

/-- Helper: one gallery-image step only adds absolute URLs. -/
theorem addGalleryImg_mem (acc : List String) (s : Option String) (x : String)
    (hx : x ∈ addGalleryImg acc s) : x ∈ acc ∨ isPreOf "http".data x.data = true := by
  match s with
  | none => exact Or.inl (by simpa [addGalleryImg] using hx)
  | some src =>
      simp only [addGalleryImg] at hx
      split at hx
      · rename_i hcond
        simp only [Bool.and_eq_true] at hcond
        rcases List.mem_append.mp hx with h | h
        · exact Or.inl h
        · simp only [List.mem_singleton] at h
          subst h
          exact Or.inr hcond.1.1.2
      · exact Or.inl hx

/-- Helper: one gallery-image step grows the list by at most one. -/
theorem addGalleryImg_length (acc : List String) (s : Option String) :
    (addGalleryImg acc s).length ≤ acc.length + 1 := by
  match s with
  | none => simp [addGalleryImg]
  | some src =>
      simp only [addGalleryImg]
      split <;> simp

/-- Helper: a whole selector preserves distinctness. -/
theorem foldl_addGalleryImg_nodup (g : List (Option String)) (acc : List String)
    (h : acc.Nodup) : (g.foldl addGalleryImg acc).Nodup := by
  induction g generalizing acc with
  | nil => simpa
  | cons s rest ih => exact ih _ (addGalleryImg_nodup acc s h)

/-- Helper: a whole selector only adds absolute URLs. -/
theorem foldl_addGalleryImg_mem (g : List (Option String)) (acc : List String) (x : String)
    (hx : x ∈ g.foldl addGalleryImg acc) : x ∈ acc ∨ isPreOf "http".data x.data = true := by
  induction g generalizing acc with
  | nil => exact Or.inl (by simpa using hx)
  | cons s rest ih =>
      rcases ih (addGalleryImg acc s) hx with h | h
      · exact addGalleryImg_mem acc s x h
      · exact Or.inr h

/-- Helper: a whole selector adds at most its own image count. -/
theorem foldl_addGalleryImg_length (g : List (Option String)) (acc : List String) :
    (g.foldl addGalleryImg acc).length ≤ acc.length + g.length := by
  induction g generalizing acc with
  | nil => simp
  | cons s rest ih =>
      have h1 := addGalleryImg_length acc s
      have h2 := ih (addGalleryImg acc s)
      simp only [List.foldl_cons, List.length_cons]
      omega

/-- Helper: the selector loop preserves distinctness. -/
theorem collectGalleries_nodup (gs : List (List (Option String))) (acc : List String)
    (h : acc.Nodup) : (collectGalleries acc gs).Nodup := by
  induction gs generalizing acc with
  | nil => simpa [collectGalleries]
  | cons g rest ih =>
      simp only [collectGalleries]
      split
      · exact h
      · exact ih _ (foldl_addGalleryImg_nodup g acc h)

/-- Helper: the selector loop only adds absolute URLs. -/
theorem collectGalleries_mem (gs : List (List (Option String))) (acc : List String)
    (x : String) (hx : x ∈ collectGalleries acc gs) :
    x ∈ acc ∨ isPreOf "http".data x.data = true := by
  induction gs generalizing acc with
  | nil => exact Or.inl (by simpa [collectGalleries] using hx)
  | cons g rest ih =>
      simp only [collectGalleries] at hx
      split at hx
      · exact Or.inl hx
      · rcases ih _ hx with h | h
        · exact foldl_addGalleryImg_mem g acc x h
        · exact Or.inr h

/-- Helper: the selector loop's length bound — a selector is entered only
below 12, so the result never exceeds the entry length or 11 plus the
largest selector batch. -/
theorem collectGalleries_length (gs : List (List (Option String))) (acc : List String) :
    (collectGalleries acc gs).length ≤
      Nat.max acc.length (11 + (gs.map List.length).foldr Nat.max 0) := by
  induction gs generalizing acc with
  | nil =>
      simp only [collectGalleries]
      exact Nat.le_max_left _ _
  | cons g rest ih =>
      simp only [collectGalleries, List.map_cons, List.foldr_cons]
      split
      · rename_i hge
        exact Nat.le_max_left _ _
      · rename_i hlt
        have h1 := ih (g.foldl addGalleryImg acc)
        have h2 := foldl_addGalleryImg_length g acc
        have ha : g.length ≤ Nat.max g.length ((rest.map List.length).foldr Nat.max 0) :=
          Nat.le_max_left _ _
        have hb : (rest.map List.length).foldr Nat.max 0 ≤
            Nat.max g.length ((rest.map List.length).foldr Nat.max 0) :=
          Nat.le_max_right _ _
        have hc : Nat.max (g.foldl addGalleryImg acc).length
              (11 + (rest.map List.length).foldr Nat.max 0) ≤
            11 + Nat.max g.length ((rest.map List.length).foldr Nat.max 0) := by
          apply Nat.max_le.mpr
          constructor <;> omega
        exact Nat.le_trans (Nat.le_trans h1 hc) (Nat.le_max_right _ _)

/-- C10 counterexample: the extraction-result image list is claimed to
hold at most 12 absolute URLs, but the 12-cap is only checked between
selectors — a single selector with thirteen distinct absolute URLs yields
a 13-entry list — and the `og:image` meta content is pushed with no
absolute-URL check, so a relative URL can appear in the list. -/
theorem collectImages_cap_cex :
    ¬ ((collectImages none [exGallery]).length ≤ 12) ∧
    "/og.png" ∈ collectImages (some "/og.png") [] ∧
    isPreOf "http".data "/og.png".data = false := by
  refine ⟨by decide, by decide, by decide⟩

/-- C10 amended: for every document, the images list contains no
duplicates; every entry is an absolute URL except possibly the leading
`og:image` entry; and its length is at most 11 plus the largest single
selector's image count (the 12-cap is enforced only at selector
boundaries) — in particular at most 12 whenever every selector yields at
most one image, but not in general. -/
theorem collectImages_postconditions (og : Option String) (gs : List (List (Option String))) :
    (collectImages og gs).Nodup ∧
    (∀ x ∈ collectImages og gs, isPreOf "http".data x.data = true ∨ og = some x) ∧
    (collectImages og gs).length ≤ 11 + (gs.map List.length).foldr Nat.max 0 := by
  have hnodup : (ogInit og).Nodup := by
    match og with
    | none => simp [ogInit]
    | some s =>
        simp only [ogInit]
        split <;> simp
  have hlen : (ogInit og).length ≤ 1 := by
    match og with
    | none => simp [ogInit]
    | some s =>
        simp only [ogInit]
        split <;> simp
  refine ⟨collectGalleries_nodup gs _ hnodup, ?_, ?_⟩
  · intro x hx
    rcases collectGalleries_mem gs _ x hx with h | h
    · right
      match og with
      | none => simp [ogInit] at h
      | some s =>
          simp only [ogInit] at h
          split at h
          · simp only [List.mem_singleton] at h
            rw [h]
          · simp at h
    · exact Or.inl h
  · have h1 := collectGalleries_length gs (ogInit og)
    have hm : Nat.max (ogInit og).length (11 + (gs.map List.length).foldr Nat.max 0) ≤
        11 + (gs.map List.length).foldr Nat.max 0 := by
      apply Nat.max_le.mpr
      constructor
      · omega
      · exact Nat.le_refl _
    exact Nat.le_trans h1 hm

/-- Witness for C10 amended: a document with an `og:image` and one
single-image selector. -/
theorem collectImages_postconditions_witness :
    (collectImages (some "http://og") [[some "http://a"]]).Nodup ∧
    (isPreOf "http".data "http://a".data = true ∨ (some "http://og" : Option String) = some "http://a") ∧
    (collectImages (some "http://og") [[some "http://a"]]).length ≤
      11 + ([[some "http://a"]].map List.length).foldr Nat.max 0 :=
  ⟨(collectImages_postconditions (some "http://og") [[some "http://a"]]).1,
   (collectImages_postconditions (some "http://og") [[some "http://a"]]).2.1 "http://a" (by decide),
   (collectImages_postconditions (some "http://og") [[some "http://a"]]).2.2⟩

/-- Helper: `takeWhile`/`dropWhile` split an all-true block followed by a
failing head. -/
theorem takeWhile_append_all (p : Char → Bool) (tok rest : List Char)
    (h1 : ∀ c ∈ tok, p c = true)
    (h2 : rest.head?.all (fun c => !(p c)) = true) :
    (tok ++ rest).takeWhile p = tok ∧ (tok ++ rest).dropWhile p = rest := by
  induction tok with
  | nil =>
      simp only [List.nil_append]
      cases rest with
      | nil => simp
      | cons c t =>
          have h3 : (!(p c)) = true := h2
          have h4 : p c = false := by simpa using h3
          simp [List.takeWhile_cons, List.dropWhile_cons, h4]
  | cons a tok ih =>
      have ha := h1 a (List.mem_cons_self _ _)
      have ih2 := ih fun c hc => h1 c (List.mem_cons_of_mem _ hc)
      simp [List.cons_append, List.takeWhile_cons, List.dropWhile_cons, ha, ih2.1, ih2.2]

/-- Helper: scanning for the first `[0-9.]` character skips a prefix
holding none. -/
theorem firstNumMatch_append (pre l : List Char) (h : ∀ c ∈ pre, isNumChar c = false) :
    firstNumMatch (pre ++ l) = firstNumMatch l := by
  induction pre with
  | nil => rfl
  | cons c t ih =>
      have hc := h c (List.mem_cons_self _ _)
      simp [firstNumMatch, hc, ih fun d hd => h d (List.mem_cons_of_mem _ hd)]

/-- C4 counterexample: the claim gives the 万-rule priority over the
bare-numeral rule anywhere in the text, but the regex takes the leftmost
`[0-9.]` token: in `"5 3万"` the bare `5` wins, so the result is `5`, not
`3 × 10000 + 0 = 30000` as the claim's rule demands; and on `".万"` the
万-branch multiplies `parseFloat(".") = NaN`, returning `NaN` instead of
the claimed `0` for unparseable input. -/
theorem parseJapaneseNumber_leftmost_cex :
    parseJapaneseNumber "5 3万" = .val 5 ∧
    JsNum.val 5 ≠ JsNum.val ((3 : Rat) * 10000 + 0) ∧
    parseJapaneseNumber ".万" = .nan ∧
    JsNum.nan ≠ JsNum.val 0 := by
  refine ⟨by decide, ?_, by decide, by decide⟩
  simp only [ne_eq, JsNum.val.injEq]
  norm_num

/-- C4 amended: `parseJapaneseNumber` is total and, after stripping
commas, is decided by the first maximal `[0-9.]` token of the text: when
that token is followed (after optional whitespace) by `万`, the result is
`parseFloat(token) × 10000` plus the following token's value (`0` when
absent, `NaN` propagating when the token is dots-only); otherwise the
result is `parseFloat(token) || 0`; with no `[0-9.]` character at all the
result is `0`.  In particular `"1万3740円" ↦ 13740`, `"3,080円" ↦ 3080`,
`"" ↦ 0`, `"不明" ↦ 0`. -/
theorem parseJapaneseNumber_characterization :
    parseJapaneseNumber "1万3740円" = .val 13740 ∧
    parseJapaneseNumber "3,080円" = .val 3080 ∧
    parseJapaneseNumber "" = .val 0 ∧
    parseJapaneseNumber "不明" = .val 0 ∧
    (∀ val : String, (∀ c ∈ val.data, isNumChar c = false) →
        parseJapaneseNumber val = .val 0) ∧
    (∀ (val : String) (pre tok rest : List Char),
      val.data.filter (fun c => c != ',') = pre ++ (tok ++ rest) →
      (∀ c ∈ pre, isNumChar c = false) →
      tok ≠ [] →
      (∀ c ∈ tok, isNumChar c = true) →
      rest.head?.all (fun c => !(isNumChar c)) = true →
      ((∀ r2, rest.dropWhile jsWs = '万' :: r2 →
          parseJapaneseNumber val =
            jsAdd (jsMul (parseFloatNum tok) (JsNum.val 10000))
              (if ((r2.dropWhile jsWs).takeWhile isNumChar).isEmpty then JsNum.val 0
               else parseFloatNum ((r2.dropWhile jsWs).takeWhile isNumChar))) ∧
       ((rest.dropWhile jsWs).head? ≠ some '万' →
          parseJapaneseNumber val = jsOrZero (parseFloatNum tok)))) := by
  refine ⟨?_, by decide, by decide, by decide, ?_, ?_⟩
  · rw [show parseJapaneseNumber "1万3740円"
        = jsAdd (jsMul (parseFloatNum "1".data) (JsNum.val 10000)) (parseFloatNum "3740".data)
        from rfl]
    rw [show parseFloatNum "1".data = JsNum.val 1 from by decide]
    rw [show parseFloatNum "3740".data = JsNum.val 3740 from by decide]
    simp only [jsMul, jsAdd, JsNum.val.injEq]
    norm_num
  · intro val h
    by_cases hv : val = ""
    · subst hv; decide
    · have hfil : ∀ c ∈ val.data.filter (fun c => c != ','), isNumChar c = false :=
        fun c hc => h c (List.mem_of_mem_filter hc)
      have hnone : firstNumMatch (val.data.filter fun c => c != ',') = none := by
        have h9 := firstNumMatch_append (val.data.filter fun c => c != ',') [] hfil
        simpa using h9
      simp [parseJapaneseNumber, hv, hnone]
  · intro val pre tok rest hfil hpre htok hnum hrest
    obtain ⟨c, tokt, rfl⟩ : ∃ c t, tok = c :: t := by
      cases tok with
      | nil => exact absurd rfl htok
      | cons c t => exact ⟨c, t, rfl⟩
    have hvne : val ≠ "" := by
      intro hv
      rw [hv] at hfil
      simp only [show ("" : String).data = [] from rfl, List.filter_nil] at hfil
      simp at hfil
    have htw := takeWhile_append_all isNumChar (c :: tokt) rest hnum hrest
    have hmatch : firstNumMatch (val.data.filter fun x => x != ',')
        = some (matchAt ((c :: tokt) ++ rest)) := by
      rw [hfil, firstNumMatch_append pre ((c :: tokt) ++ rest) hpre]
      have hc := hnum c (List.mem_cons_self _ _)
      simp [firstNumMatch, hc]
    have htw1 := htw.1
    have htw2 := htw.2
    simp only [List.cons_append] at htw1 htw2
    constructor
    · intro r2 h29
      have hma : matchAt ((c :: tokt) ++ rest)
          = NumMatch.man (c :: tokt) ((r2.dropWhile jsWs).takeWhile isNumChar) := by
        simp only [matchAt, List.cons_append, List.drop_one]
        rw [htw1, htw2, h29]
        simp
      simp only [parseJapaneseNumber]
      rw [if_neg hvne, hmatch, hma]
    · intro hnm
      have hma : matchAt ((c :: tokt) ++ rest) = NumMatch.bare (c :: tokt) := by
        simp only [matchAt, List.cons_append, List.drop_one]
        rw [htw1, htw2, if_neg hnm]
      simp only [parseJapaneseNumber]
      rw [if_neg hvne, hmatch, hma]

/-- Witness for C4 amended: a text with no `[0-9.]` character maps to 0;
`"X12万34Y"` exercises the 万-branch at the first token; `"a 77b"`
exercises the bare branch. -/
theorem parseJapaneseNumber_characterization_witness :
    parseJapaneseNumber "はabc" = .val 0 ∧
    parseJapaneseNumber "X12万34Y" =
      jsAdd (jsMul (parseFloatNum "12".data) (JsNum.val 10000))
        (if (("34Y".data.dropWhile jsWs).takeWhile isNumChar).isEmpty then JsNum.val 0
         else parseFloatNum (("34Y".data.dropWhile jsWs).takeWhile isNumChar)) ∧
    parseJapaneseNumber "a 77b" = jsOrZero (parseFloatNum "77".data) := by
  obtain ⟨_, _, _, _, hnone, hmain⟩ := parseJapaneseNumber_characterization
  refine ⟨hnone "はabc" (by decide), ?_, ?_⟩
  · exact (hmain "X12万34Y" "X".data "12".data "万34Y".data (by decide) (by decide)
      (by decide) (by decide) (by decide)).1 "34Y".data (by decide)
  · exact (hmain "a 77b" "a ".data "77".data "b".data (by decide) (by decide)
      (by decide) (by decide) (by decide)).2 (by decide)

end Kaaoune
